import Mathlib

/-!
Shallow embedding of `src/main.cpp` (three creational design-pattern demos:
Builder, Factory Method, Abstract Factory) and proofs of the spec claims.

Conventions of the embedding:
- C++ `std::string` is Lean `String`; default-constructed strings are `""`.
- Heap allocation (`new` / `make_unique`) is modelled by threading an explicit
  allocation counter; each allocation records the counter value as its address,
  so distinct allocations have distinct addresses (no shared ownership).
- Undefined behaviour (null-pointer dereference, out-of-bounds array write,
  `strcpy` overflowing its destination buffer) is modelled as `Option.none`.
- Each `cout ... << endl;` statement is one `String` element of an output
  trace; a leading `"\n"` inside a C++ string literal is kept verbatim.
-/

namespace DesignPatterns

/-! ## 1. Builder demo: `Pizza`, `PizzaBuilder`, `Cook` -/

/-- `class Pizza` (src/main.cpp:24-48): three string fields set by mutators. -/
structure Pizza where
  m_dough : String
  m_sauce : String
  m_topping : String
deriving DecidableEq

/-- A default-constructed `Pizza` (all `std::string` members empty). -/
def Pizza.mkDefault : Pizza := ⟨"", "", ""⟩

/-- `Pizza::setDough` (src/main.cpp:27). -/
def Pizza.setDough (p : Pizza) (dough : String) : Pizza := { p with m_dough := dough }

/-- `Pizza::setSauce` (src/main.cpp:31). -/
def Pizza.setSauce (p : Pizza) (sauce : String) : Pizza := { p with m_sauce := sauce }

/-- `Pizza::setTopping` (src/main.cpp:35). -/
def Pizza.setTopping (p : Pizza) (topping : String) : Pizza := { p with m_topping := topping }

/-- The line printed by `Pizza::open` (src/main.cpp:39-43). -/
def Pizza.openMsg (p : Pizza) : String :=
  "Pizza with " ++ p.m_dough ++ " dough, " ++ p.m_sauce ++ " sauce and "
    ++ p.m_topping ++ " topping. Mmm."

/-- The two concrete builder subclasses of `PizzaBuilder`:
`HawaiianPizzaBuilder` (src/main.cpp:73) and `SpicyPizzaBuilder` (src/main.cpp:92). -/
inductive BuilderKind where
  | hawaiian
  | spicy
deriving DecidableEq

/-- A heap-allocated `Pizza` object: the allocation address distinguishes
distinct `make_unique<Pizza>()` results. -/
structure PizzaObj where
  addr : Nat
  val : Pizza
deriving DecidableEq

/-- A `PizzaBuilder` (src/main.cpp:51-69): its dynamic type (`kind`) and the
`unique_ptr<Pizza> m_pizza` member (`none` = null). -/
structure PizzaBuilder where
  kind : BuilderKind
  m_pizza : Option PizzaObj

/-- The build steps a `Cook` performs on a builder, used to trace the order of
operations in `Cook::makePizza`. -/
inductive BuildStep where
  | createProduct
  | doughStep
  | sauceStep
  | toppingStep
deriving DecidableEq

/-- `PizzaBuilder::createNewPizzaProduct` (src/main.cpp:60-63):
`m_pizza = make_unique<Pizza>()`, allocating a fresh default `Pizza`.
Takes and returns the allocation counter. -/
def PizzaBuilder.createNewPizzaProduct (b : PizzaBuilder) (heap : Nat) :
    PizzaBuilder × Nat × BuildStep :=
  ({ b with m_pizza := some ⟨heap, Pizza.mkDefault⟩ }, heap + 1, .createProduct)

/-- The body of the virtual `buildDough` override:
`HawaiianPizzaBuilder::buildDough` sets `"cross"` (src/main.cpp:78-81),
`SpicyPizzaBuilder::buildDough` sets `"pan baked"` (src/main.cpp:97-100). -/
def buildDoughFn : BuilderKind → Pizza → Pizza
  | .hawaiian, p => p.setDough "cross"
  | .spicy, p => p.setDough "pan baked"

/-- The body of the virtual `buildSauce` override:
Hawaiian sets `"mild"` (src/main.cpp:82-85), Spicy sets `"hot"`
(src/main.cpp:101-104). -/
def buildSauceFn : BuilderKind → Pizza → Pizza
  | .hawaiian, p => p.setSauce "mild"
  | .spicy, p => p.setSauce "hot"

/-- The body of the virtual `buildTopping` override:
Hawaiian sets `"ham+pineapple"` (src/main.cpp:86-89), Spicy sets
`"pepperoni+salami"` (src/main.cpp:105-108). -/
def buildToppingFn : BuilderKind → Pizza → Pizza
  | .hawaiian, p => p.setTopping "ham+pineapple"
  | .spicy, p => p.setTopping "pepperoni+salami"

/-- Virtual dispatch of `buildDough` on a builder: dereferences `m_pizza`
(`none` if null — undefined behaviour) and mutates the owned pizza. -/
def PizzaBuilder.buildDough (b : PizzaBuilder) : Option (PizzaBuilder × BuildStep) :=
  b.m_pizza.map fun po =>
    ({ b with m_pizza := some { po with val := buildDoughFn b.kind po.val } }, .doughStep)

/-- Virtual dispatch of `buildSauce` on a builder. -/
def PizzaBuilder.buildSauce (b : PizzaBuilder) : Option (PizzaBuilder × BuildStep) :=
  b.m_pizza.map fun po =>
    ({ b with m_pizza := some { po with val := buildSauceFn b.kind po.val } }, .sauceStep)

/-- Virtual dispatch of `buildTopping` on a builder. -/
def PizzaBuilder.buildTopping (b : PizzaBuilder) : Option (PizzaBuilder × BuildStep) :=
  b.m_pizza.map fun po =>
    ({ b with m_pizza := some { po with val := buildToppingFn b.kind po.val } }, .toppingStep)

/-- `Cook::makePizza(pb)` (src/main.cpp:120-127): stores the builder and runs
`createNewPizzaProduct(); buildDough(); buildSauce(); buildTopping();` in that
order, collecting the step each call performs. Returns the builder (the
`Cook`'s `m_pizzaBuilder` now points at it), the allocation counter, and the
ordered step trace. -/
def Cook.makePizza (pb : PizzaBuilder) (heap : Nat) :
    Option (PizzaBuilder × Nat × List BuildStep) := do
  let (b1, h1, s1) := pb.createNewPizzaProduct heap
  let (b2, s2) ← b1.buildDough
  let (b3, s3) ← b2.buildSauce
  let (b4, s4) ← b3.buildTopping
  some (b4, h1, [s1, s2, s3, s4])

/-- `Cook::openPizza` (src/main.cpp:116-119): `getPizza()->open()`; `none` if
the builder holds no pizza (null dereference). -/
def Cook.openPizza (b : PizzaBuilder) : Option String :=
  b.m_pizza.map fun po => po.val.openMsg

/-- The pizza value produced by running the director on a fresh builder of the
given kind. -/
def cookResult (k : BuilderKind) (heap : Nat) : Option Pizza :=
  match Cook.makePizza { kind := k, m_pizza := none } heap with
  | some (b, _, _) => b.m_pizza.map (·.val)
  | none => none

/-! ## 2. Factory Method demo: `Document`, `Application`, `MyApplication` -/

/-- `strcpy(name, fn)` into `char name[20]` (src/main.cpp:150-153, 161): a
string of length at most 19 fits (with the NUL terminator); a longer one
overflows the buffer — undefined behaviour, modelled as `none`. -/
def strcpy20 (fn : String) : Option String :=
  if fn.length ≤ 19 then some fn else none

/-- `class Document` (src/main.cpp:147-162): the `char name[20]` member.
`none` means the buffer content is undefined (overflowing `strcpy`). All
documents in the program are `MyDocument`s, whose `Open`/`Close` only print
fixed lines, so the name is the only per-object state. -/
structure Document where
  name : Option String
deriving DecidableEq

/-- `MyDocument(fn)` (src/main.cpp:168) → `Document(fn)` → `strcpy(name, fn)`. -/
def MyDocument.create (fn : String) : Document := ⟨strcpy20 fn⟩

/-- Line printed by `MyDocument::Open` (src/main.cpp:169-172). -/
def MyDocument.openLine : String := "   MyDocument: Open()"

/-- Line printed by `MyDocument::Close` (src/main.cpp:173-176). -/
def MyDocument.closeLine : String := "   MyDocument: Close()"

/-- The observable events of one `Application::NewDocument` call, in the order
they happen: the `CreateDocument` hook is invoked, the returned document is
stored in `_docs[_index]`, and that document is opened. -/
inductive DocEvent where
  | hookInvoked (name : String)
  | appended (d : Document)
  | opened (d : Document)
deriving DecidableEq

/-- State of a `MyApplication` (src/main.cpp:180-226): `_index` and the
fixed-size array `Document* _docs[10]` (`none` = uninitialized slot). The demo
instantiates the single concrete subclass `MyApplication`, whose
`CreateDocument` override is `MyDocument.create`. -/
structure Application where
  index : Nat
  docs : List (Option Document)
deriving DecidableEq

/-- `Application(): _index(0)` (src/main.cpp:183-186); array slots start
uninitialized. -/
def Application.appInit : Application := ⟨0, List.replicate 10 none⟩

/-- The two constructor lines printed when `MyApplication myApp;` runs
(src/main.cpp:183-186, 214-219). -/
def MyApplication.ctorLines : List String :=
  ["Application: ctor", "MyApplication: ctor"]

/-- `Application::NewDocument(name)` (src/main.cpp:188-194):
`_docs[_index] = CreateDocument(name); _docs[_index++]->Open();`.
The write `_docs[_index] = ...` is only defined while `_index < 10` (the array
has 10 slots and the source performs no bounds check): past that it is
undefined behaviour, modelled as `none`. On success, returns the new state and
the ordered event trace of the call. -/
def Application.NewDocument (st : Application) (name : String) :
    Option (Application × List DocEvent) :=
  if st.index < 10 then
    let d := MyDocument.create name
    some ({ index := st.index + 1, docs := st.docs.set st.index (some d) },
      [.hookInvoked name, .appended d, .opened d])
  else
    none

/-- The lines one `NewDocument` call prints: its own banner, then the hook's
line (src/main.cpp:223), then the opened document's line (src/main.cpp:171). -/
def DocEvent.render : DocEvent → List String
  | .hookInvoked _ => ["   MyApplication: CreateDocument()"]
  | .appended _ => []
  | .opened _ => [MyDocument.openLine]

/-- Output of one `NewDocument` call, assembled from its event trace. -/
def newDocLines (evs : List DocEvent) : List String :=
  "Application: NewDocument()" :: evs.flatMap DocEvent.render

/-- A sequence of `NewDocument` calls, in order; `none` as soon as one call
hits undefined behaviour. -/
def Application.runNewDocs (st : Application) : List String → Option Application
  | [] => some st
  | n :: ns =>
    match st.NewDocument n with
    | some (st', _) => st'.runNewDocs ns
    | none => none

/-- `Application::ReportDocs` (src/main.cpp:205-210): prints a banner then
`_docs[i]->GetName()` for `i = 0.._index-1` in order. Reading an uninitialized
slot or a `strcpy`-clobbered name is undefined behaviour (`none`). -/
def Application.ReportDocs (st : Application) : Option (List String) :=
  ((st.docs.take st.index).mapM (fun od => Option.bind od Document.name)).map
    (fun names => "Application: ReportDocs()" :: names.map (fun n => "   " ++ n))

/-! ## 3. Abstract Factory demo: `Shape`, `Factory` -/

/-- The concrete subclasses of `Shape` (src/main.cpp:263-286). -/
inductive ShapeKind where
  | circle
  | square
  | ellipse
  | rectangle
deriving DecidableEq

/-- A `Shape` (src/main.cpp:251-261): its dynamic type and the `id_` member.
(`id_` and the global counter are C++ `int`s; the program constructs three
shapes, far from signed overflow, so `Nat` models them.) -/
structure Shape where
  kind : ShapeKind
  id_ : Nat
deriving DecidableEq

/-- `Shape::Shape` (src/main.cpp:253-255): `id_ = total_++;` on the
process-wide static counter `Shape::total_` (initialized to 0 at
src/main.cpp:261), threaded explicitly. -/
def Shape.construct (k : ShapeKind) (total_ : Nat) : Shape × Nat :=
  (⟨k, total_⟩, total_ + 1)

/-- The name each `draw` override prints (src/main.cpp:263-286). -/
def ShapeKind.name : ShapeKind → String
  | .circle => "circle"
  | .square => "square"
  | .ellipse => "ellipse"
  | .rectangle => "rectangle"

/-- The line printed by the virtual `draw` (src/main.cpp:265-267 etc.):
`cout << <kind> << " " << id_ << ": draw" << endl`. -/
def Shape.draw (s : Shape) : String :=
  s.kind.name ++ " " ++ toString s.id_ ++ ": draw"

/-- The concrete subclasses of `Factory` (src/main.cpp:294-311). -/
inductive FactoryKind where
  | simple
  | robust
deriving DecidableEq

/-- `createCurvedInstance` (src/main.cpp:296-298, 305-307):
`SimpleShapeFactory` returns `new Circle`, `RobustShapeFactory` returns
`new Ellipse`. The shape constructor consumes the global counter. -/
def createCurvedInstance : FactoryKind → Nat → Shape × Nat
  | .simple, t => Shape.construct .circle t
  | .robust, t => Shape.construct .ellipse t

/-- `createStraightInstance` (src/main.cpp:299-301, 308-310):
`SimpleShapeFactory` returns `new Square`, `RobustShapeFactory` returns
`new Rectangle`. -/
def createStraightInstance : FactoryKind → Nat → Shape × Nat
  | .simple, t => Shape.construct .square t
  | .robust, t => Shape.construct .rectangle t

/-- Constructing a sequence of shapes in order, threading `Shape::total_`. -/
def allocShapes : List ShapeKind → Nat → List Shape × Nat
  | [], t => ([], t)
  | k :: ks, t =>
    let (s, t') := Shape.construct k t
    let (ss, t'') := allocShapes ks t'
    (s :: ss, t'')

/-! ## 4. The entry point `main` (src/main.cpp:328-371) -/

/-- The complete standard-output trace of `main`: one list element per
`cout ... << endl` statement, in execution order. `main` takes no arguments
and reads no environment or persisted state, so this is a closed constant.
`none` would mean the run hits undefined behaviour. -/
def mainOutput : Option (List String) := do
  -- Builder demo (src/main.cpp:331-340): one Cook, two builders.
  let (hb, h1, _) ← Cook.makePizza { kind := .hawaiian, m_pizza := none } 0
  let line1 ← Cook.openPizza hb
  let (sb, _, _) ← Cook.makePizza { kind := .spicy, m_pizza := none } h1
  let line2 ← Cook.openPizza sb
  -- Factory Method demo (src/main.cpp:344-349): MyApplication myApp; two
  -- NewDocument calls; ReportDocs.
  let (app1, evs1) ← Application.appInit.NewDocument "foo"
  let (app2, evs2) ← app1.NewDocument "bar"
  let report ← app2.ReportDocs
  -- Abstract Factory demo (src/main.cpp:356-366): the live line constructs a
  -- SimpleShapeFactory (the RobustShapeFactory line is commented out);
  -- curved, straight, curved; then draw each in order.
  let (s0, t0) := createCurvedInstance .simple 0
  let (s1, t1) := createStraightInstance .simple t0
  let (s2, _) := createCurvedInstance .simple t1
  some (["\n----------------BUILDER ---------------------------", line1, line2]
    ++ ["\n----------------FACTORY METHOD ---------------------------"]
    ++ MyApplication.ctorLines
    ++ newDocLines evs1 ++ newDocLines evs2
    ++ report
    ++ ["\n----------------ABSTRACT FACTORY ---------------------------"]
    ++ [s0.draw, s1.draw, s2.draw])

/-- The product object (with its allocation address) the builder owns after a
`Cook::makePizza` run, together with the builder and allocation counter. -/
def makePizzaObj (b : PizzaBuilder) (heap : Nat) : Option (PizzaObj × PizzaBuilder × Nat) :=
  match Cook.makePizza b heap with
  | some (b', h', _) => b'.m_pizza.map (fun po => (po, b', h'))
  | none => none

/-! ## Helper lemmas -/

theorem allocShapes_map_id : ∀ (ks : List ShapeKind) (t : Nat),
    (allocShapes ks t).1.map Shape.id_ = List.range' t ks.length
  | [], _ => rfl
  | k :: ks, t => by
    simp only [allocShapes, Shape.construct, List.map_cons, List.length_cons,
      List.range'_succ, allocShapes_map_id ks (t + 1)]

theorem allocShapes_counter : ∀ (ks : List ShapeKind) (t : Nat),
    (allocShapes ks t).2 = t + ks.length
  | [], _ => by simp [allocShapes]
  | k :: ks, t => by
    simp only [allocShapes, Shape.construct, allocShapes_counter ks (t + 1),
      List.length_cons]
    omega

theorem runNewDocs_eq : ∀ (names : List String) (pre : List (Option Document)),
    pre.length + names.length ≤ 10 →
    Application.runNewDocs ⟨pre.length, pre ++ List.replicate (10 - pre.length) none⟩ names
      = some ⟨pre.length + names.length,
          (pre ++ names.map (fun n => some (MyDocument.create n)))
            ++ List.replicate (10 - (pre.length + names.length)) none⟩
  | [], pre => by
    intro _
    simp [Application.runNewDocs]
  | n :: ns, pre => by
    intro h
    have hlt : pre.length < 10 := by
      simp only [List.length_cons] at h
      omega
    have hrep : List.replicate (10 - pre.length) (none : Option Document)
        = none :: List.replicate (10 - (pre.length + 1)) none := by
      have : 10 - pre.length = (10 - (pre.length + 1)) + 1 := by omega
      rw [this, List.replicate_succ]
    have hset : (pre ++ List.replicate (10 - pre.length) none).set pre.length
          (some (MyDocument.create n))
        = (pre ++ [some (MyDocument.create n)])
            ++ List.replicate (10 - (pre.length + 1)) none := by
      rw [List.set_append, if_neg (by omega), Nat.sub_self, hrep, List.set_cons_zero,
        List.append_assoc, List.singleton_append]
    have step : Application.runNewDocs
          ⟨pre.length, pre ++ List.replicate (10 - pre.length) none⟩ (n :: ns)
        = Application.runNewDocs
            ⟨(pre ++ [some (MyDocument.create n)]).length,
             (pre ++ [some (MyDocument.create n)])
               ++ List.replicate (10 - (pre ++ [some (MyDocument.create n)]).length) none⟩ ns := by
      simp only [Application.runNewDocs, Application.NewDocument, hlt, if_pos, hset,
        List.length_append, List.length_singleton]
    rw [step, runNewDocs_eq ns (pre ++ [some (MyDocument.create n)])
      (by simp only [List.length_append, List.length_singleton]
          simp only [List.length_cons] at h
          omega)]
    simp only [List.length_append, List.length_singleton, List.length_cons,
      List.append_assoc, List.singleton_append, List.map_cons]
    have e : pre.length + (List.length ([] : List (Option Document)) + 1) + ns.length
        = pre.length + (ns.length + 1) := by
      simp only [List.length_nil]
      omega
    rw [e]

theorem runNewDocs_append (as bs : List String) : ∀ st : Application,
    Application.runNewDocs st (as ++ bs)
      = (Application.runNewDocs st as).bind (fun s => Application.runNewDocs s bs) := by
  induction as with
  | nil => intro st; rfl
  | cons a as ih =>
    intro st
    simp only [List.cons_append, Application.runNewDocs]
    cases st.NewDocument a with
    | none => rfl
    | some p => exact ih p.1

theorem mapM_stored_names : ∀ l : List String,
    (l.map (fun n => some (⟨some n⟩ : Document))).mapM
        (fun od => Option.bind od Document.name)
      = some l
  | [] => rfl
  | n :: ns => by
    simp only [List.map_cons, List.mapM_cons, mapM_stored_names ns, Document.name,
      Option.bind_some]
    rfl

theorem runNewDocs_index_le : ∀ (names : List String) (st st' : Application),
    st.index ≤ 10 → Application.runNewDocs st names = some st' → st'.index ≤ 10
  | [], st, st' => by
    intro h he
    simp only [Application.runNewDocs, Option.some.injEq] at he
    exact he ▸ h
  | n :: ns, st, st' => by
    intro h he
    by_cases hlt : st.index < 10
    · rw [show Application.runNewDocs st (n :: ns)
            = Application.runNewDocs
                ⟨st.index + 1, st.docs.set st.index (some (MyDocument.create n))⟩ ns from by
          simp [Application.runNewDocs, Application.NewDocument, hlt]] at he
      refine runNewDocs_index_le ns _ st' ?_ he
      show st.index + 1 ≤ 10
      omega
    · rw [show Application.runNewDocs st (n :: ns) = none from by
          simp [Application.runNewDocs, Application.NewDocument, hlt]] at he
      exact absurd he (by simp)

/-! ## Claim theorems -/

/-- C1: after the director runs the full build sequence (create, dough, sauce,
topping) with a Hawaiian builder the product is
dough="cross", sauce="mild", topping="ham+pineapple"; with a Spicy builder it
is dough="pan baked", sauce="hot", topping="pepperoni+salami". -/
theorem builder_full_build_attributes (heap : Nat) :
    cookResult BuilderKind.hawaiian heap
      = some { m_dough := "cross", m_sauce := "mild", m_topping := "ham+pineapple" } ∧
    cookResult BuilderKind.spicy heap
      = some { m_dough := "pan baked", m_sauce := "hot", m_topping := "pepperoni+salami" } :=
  ⟨rfl, rfl⟩

/-- C7: `Cook::makePizza` performs exactly four steps on the supplied builder,
in the fixed order create-product, dough, sauce, topping — for every builder
variant and every prior builder state. -/
theorem director_fixed_step_order (pb : PizzaBuilder) (heap : Nat) :
    (Cook.makePizza pb heap).map (fun r => r.2.2)
      = some [BuildStep.createProduct, BuildStep.doughStep,
              BuildStep.sauceStep, BuildStep.toppingStep] := rfl

/-- C5: building twice in succession with the same builder variant yields two
products at distinct heap addresses (no shared ownership) with identical
attribute values. -/
theorem builder_twice_independent_products (k : BuilderKind) (heap : Nat) :
    ∃ po1 b1 h1 po2 b2 h2,
      makePizzaObj { kind := k, m_pizza := none } heap = some (po1, b1, h1) ∧
      makePizzaObj b1 h1 = some (po2, b2, h2) ∧
      po1.val = po2.val ∧ po1.addr ≠ po2.addr := by
  cases k <;>
    · refine ⟨_, _, _, _, _, _, rfl, rfl, rfl, ?_⟩
      show heap ≠ heap + 1
      omega

/-- C10: each build-part operation of either builder variant mutates only its
own attribute of the in-progress product: `buildDough` leaves sauce and
topping unchanged, `buildSauce` leaves dough and topping unchanged, and
`buildTopping` leaves dough and sauce unchanged, for every prior state. -/
theorem build_part_frame (k : BuilderKind) (p : Pizza) :
    (buildDoughFn k p).m_sauce = p.m_sauce ∧ (buildDoughFn k p).m_topping = p.m_topping ∧
    (buildSauceFn k p).m_dough = p.m_dough ∧ (buildSauceFn k p).m_topping = p.m_topping ∧
    (buildToppingFn k p).m_dough = p.m_dough ∧ (buildToppingFn k p).m_sauce = p.m_sauce := by
  cases k <;> exact ⟨rfl, rfl, rfl, rfl, rfl, rfl⟩

/-- C3: shape identifiers are exactly the consecutive values of the global
counter, hence pairwise strictly increasing in construction order (so unique),
and the counter only ever advances (never resets), for every construction
sequence and every starting counter value. -/
theorem shape_ids_unique_increasing (ks : List ShapeKind) (t : Nat) :
    (allocShapes ks t).1.map Shape.id_ = List.range' t ks.length ∧
    (allocShapes ks t).1.Pairwise (fun a b => a.id_ < b.id_) ∧
    (allocShapes ks t).2 = t + ks.length := by
  refine ⟨allocShapes_map_id ks t, ?_, allocShapes_counter ks t⟩
  have h := List.pairwise_lt_range' t ks.length
  rw [← allocShapes_map_id ks t, List.pairwise_map] at h
  exact h

/-- C4: each factory variant's two creation operations always allocate a fresh
shape of the variant's fixed concrete type (simple: curved=Circle,
straight=Square; robust: curved=Ellipse, straight=Rectangle), and the
curved-straight-curved scenario on one factory yields three shapes following
that mapping with strictly increasing identifiers. -/
theorem factory_family_mapping (t : Nat) :
    ((createCurvedInstance .simple t).1.kind = ShapeKind.circle ∧
     (createStraightInstance .simple t).1.kind = ShapeKind.square ∧
     (createCurvedInstance .robust t).1.kind = ShapeKind.ellipse ∧
     (createStraightInstance .robust t).1.kind = ShapeKind.rectangle) ∧
    (∀ f : FactoryKind, (createCurvedInstance f t).2 = t + 1 ∧
      (createStraightInstance f t).2 = t + 1) ∧
    ((createCurvedInstance .simple t).1.kind = ShapeKind.circle ∧
     (createStraightInstance .simple ((createCurvedInstance .simple t).2)).1.kind
        = ShapeKind.square ∧
     (createCurvedInstance .simple
        ((createStraightInstance .simple ((createCurvedInstance .simple t).2)).2)).1.kind
        = ShapeKind.circle ∧
     (createCurvedInstance .simple t).1.id_
        < (createStraightInstance .simple ((createCurvedInstance .simple t).2)).1.id_ ∧
     (createStraightInstance .simple ((createCurvedInstance .simple t).2)).1.id_
        < (createCurvedInstance .simple
            ((createStraightInstance .simple ((createCurvedInstance .simple t).2)).2)).1.id_) ∧
    ((createCurvedInstance .robust t).1.kind = ShapeKind.ellipse ∧
     (createStraightInstance .robust ((createCurvedInstance .robust t).2)).1.kind
        = ShapeKind.rectangle ∧
     (createCurvedInstance .robust
        ((createStraightInstance .robust ((createCurvedInstance .robust t).2)).2)).1.kind
        = ShapeKind.ellipse ∧
     (createCurvedInstance .robust t).1.id_
        < (createStraightInstance .robust ((createCurvedInstance .robust t).2)).1.id_ ∧
     (createStraightInstance .robust ((createCurvedInstance .robust t).2)).1.id_
        < (createCurvedInstance .robust
            ((createStraightInstance .robust ((createCurvedInstance .robust t).2)).2)).1.id_) := by
  refine ⟨⟨rfl, rfl, rfl, rfl⟩, ?_, ⟨rfl, rfl, rfl, ?_, ?_⟩, ⟨rfl, rfl, rfl, ?_, ?_⟩⟩
  · intro f; cases f <;> exact ⟨rfl, rfl⟩
  all_goals simp [createCurvedInstance, createStraightInstance, Shape.construct]

/-- C9: the entire standard-output stream of `main` is one fixed sequence of
lines, independent of anything external (the entry point reads no arguments,
environment, or persisted state — `mainOutput` is a closed constant), so every
run writes exactly this list, in this order. -/
theorem main_output_fixed :
    mainOutput = some
      ["\n----------------BUILDER ---------------------------",
       "Pizza with cross dough, mild sauce and ham+pineapple topping. Mmm.",
       "Pizza with pan baked dough, hot sauce and pepperoni+salami topping. Mmm.",
       "\n----------------FACTORY METHOD ---------------------------",
       "Application: ctor", "MyApplication: ctor",
       "Application: NewDocument()", "   MyApplication: CreateDocument()",
       "   MyDocument: Open()",
       "Application: NewDocument()", "   MyApplication: CreateDocument()",
       "   MyDocument: Open()",
       "Application: ReportDocs()", "   foo", "   bar",
       "\n----------------ABSTRACT FACTORY ---------------------------",
       "circle 0: draw", "square 1: draw", "circle 2: draw"] := by
  decide

/-- C6: every (defined) `Application::NewDocument(name)` call produces exactly
the event trace hook-invoked, append, open, in that order — the
`CreateDocument` hook runs exactly once, the document it returns is stored at
`_docs[_index]`, and that same document is then opened — and `_index`
advances by one. -/
theorem newDocument_hook_append_open (st : Application) (name : String)
    (st' : Application) (evs : List DocEvent)
    (h : st.NewDocument name = some (st', evs)) :
    evs = [DocEvent.hookInvoked name, DocEvent.appended (MyDocument.create name),
           DocEvent.opened (MyDocument.create name)] ∧
    st'.docs = st.docs.set st.index (some (MyDocument.create name)) ∧
    st'.index = st.index + 1 := by
  by_cases hlt : st.index < 10
  · simp only [Application.NewDocument, if_pos hlt, Option.some.injEq, Prod.mk.injEq] at h
    obtain ⟨hst, hevs⟩ := h
    subst hst
    exact ⟨hevs.symm, rfl, rfl⟩
  · simp [Application.NewDocument, if_neg hlt] at h

/-- Witness for C6 at the initial application state and name "foo". -/
theorem newDocument_hook_append_open_witness :
    [DocEvent.hookInvoked "foo", DocEvent.appended (MyDocument.create "foo"),
     DocEvent.opened (MyDocument.create "foo")]
      = [DocEvent.hookInvoked "foo", DocEvent.appended (MyDocument.create "foo"),
         DocEvent.opened (MyDocument.create "foo")] ∧
    (List.replicate 10 (none : Option Document)).set 0 (some (MyDocument.create "foo"))
      = Application.appInit.docs.set Application.appInit.index (some (MyDocument.create "foo")) ∧
    (1 : Nat) = Application.appInit.index + 1 :=
  newDocument_hook_append_open Application.appInit "foo"
    ⟨1, (List.replicate 10 none).set 0 (some (MyDocument.create "foo"))⟩
    [DocEvent.hookInvoked "foo", DocEvent.appended (MyDocument.create "foo"),
     DocEvent.opened (MyDocument.create "foo")] (by decide)

/-- C8: with at most 10 `NewDocument` calls, every registry write stays in
bounds and the run is fully defined, with `_index` ending at the call count;
any defined run leaves `_index ≤ 10`; and an eleventh append has no defined
behaviour (the model returns `none`). -/
theorem registry_writes_in_bounds (names : List String) :
    (names.length ≤ 10 →
      Application.appInit.runNewDocs names
        = some ⟨names.length,
            names.map (fun n => some (MyDocument.create n))
              ++ List.replicate (10 - names.length) none⟩) ∧
    (∀ st : Application, Application.appInit.runNewDocs names = some st → st.index ≤ 10) ∧
    (names.length = 11 → Application.appInit.runNewDocs names = none) := by
  refine ⟨?_, ?_, ?_⟩
  · intro h
    have he := runNewDocs_eq names [] (by simpa using h)
    simpa using he
  · intro st h
    exact runNewDocs_index_le names Application.appInit st (by decide) h
  · intro h11
    rw [← List.take_append_drop 10 names, runNewDocs_append]
    have h10 : (names.take 10).length = 10 := by
      rw [List.length_take]
      omega
    have he := runNewDocs_eq (names.take 10) [] (by simp [h10])
    simp only [List.nil_append, List.length_nil, Nat.zero_add, h10] at he
    have he' : Application.appInit.runNewDocs (names.take 10)
        = some ⟨10, List.map (fun n => some (MyDocument.create n)) (names.take 10)
            ++ List.replicate (10 - 10) none⟩ := he
    rw [he']
    obtain ⟨m, ms, hd⟩ : ∃ m ms, names.drop 10 = m :: ms := by
      cases hdeq : names.drop 10 with
      | nil =>
        have := List.length_drop 10 names
        rw [hdeq] at this
        simp at this
        omega
      | cons m ms => exact ⟨m, ms, rfl⟩
    rw [hd]
    simp [Application.runNewDocs, Application.NewDocument]

/-- Witness for C8: a two-call run succeeds with `_index = 2` and stays within
bounds, and an eleven-call run is undefined. -/
theorem registry_writes_in_bounds_witness :
    Application.appInit.runNewDocs ["foo", "bar"]
      = some ⟨2, [some (MyDocument.create "foo"), some (MyDocument.create "bar")]
          ++ List.replicate 8 none⟩ ∧
    (⟨2, [some (MyDocument.create "foo"), some (MyDocument.create "bar")]
        ++ List.replicate 8 (none : Option Document)⟩ : Application).index ≤ 10 ∧
    Application.appInit.runNewDocs (List.replicate 11 "doc") = none :=
  ⟨(registry_writes_in_bounds ["foo", "bar"]).1 (by decide),
   (registry_writes_in_bounds ["foo", "bar"]).2.1
     ⟨2, [some (MyDocument.create "foo"), some (MyDocument.create "bar")]
        ++ List.replicate 8 none⟩ (by decide),
   (registry_writes_in_bounds (List.replicate 11 "doc")).2.2 (by decide)⟩

/-- C2 (amended): for at most 10 `NewDocument` calls whose names each fit the
20-byte `char name[20]` buffer (length ≤ 19), the registry holds exactly the
N documents in call order, each storing exactly the passed name, and
`ReportDocs` prints those names in insertion order after its banner. -/
theorem newDocument_sequence_registry (names : List String)
    (hlen : names.length ≤ 10) (hfit : ∀ n ∈ names, n.length ≤ 19) :
    Application.appInit.runNewDocs names
      = some ⟨names.length,
          names.map (fun n => some (⟨some n⟩ : Document))
            ++ List.replicate (10 - names.length) none⟩ ∧
    Application.ReportDocs
        ⟨names.length,
          names.map (fun n => some (⟨some n⟩ : Document))
            ++ List.replicate (10 - names.length) none⟩
      = some ("Application: ReportDocs()" :: names.map (fun n => "   " ++ n)) := by
  have hmap : names.map (fun n => some (MyDocument.create n))
      = names.map (fun n => some (⟨some n⟩ : Document)) := by
    apply List.map_congr_left
    intro n hn
    simp [MyDocument.create, strcpy20, hfit n hn]
  constructor
  · have he := runNewDocs_eq names [] (by simpa using hlen)
    rw [hmap] at he
    simpa using he
  · have htake : (names.map (fun n => some (⟨some n⟩ : Document))
        ++ List.replicate (10 - names.length) none).take names.length
        = names.map (fun n => some (⟨some n⟩ : Document)) := by
      conv in List.take names.length =>
        rw [show names.length
              = (names.map (fun n => some (⟨some n⟩ : Document))).length by
            rw [List.length_map]]
      exact List.take_left _ _
    show ((((names.map (fun n => some (⟨some n⟩ : Document))
        ++ List.replicate (10 - names.length) none).take names.length).mapM
          (fun od => Option.bind od Document.name)).map
            (fun ns => "Application: ReportDocs()" :: List.map (fun n => "   " ++ n) ns))
      = some ("Application: ReportDocs()" :: names.map (fun n => "   " ++ n))
    rw [htake, mapM_stored_names names]
    rfl

/-- Witness for C2 at the spec scenario `newDocument("foo"); newDocument("bar");
reportDocs()`. -/
theorem newDocument_sequence_registry_witness :
    Application.appInit.runNewDocs ["foo", "bar"]
      = some ⟨2, [some (⟨some "foo"⟩ : Document), some (⟨some "bar"⟩ : Document)]
          ++ List.replicate 8 none⟩ ∧
    Application.ReportDocs
        ⟨2, [some (⟨some "foo"⟩ : Document), some (⟨some "bar"⟩ : Document)]
          ++ List.replicate 8 none⟩
      = some ["Application: ReportDocs()", "   foo", "   bar"] :=
  newDocument_sequence_registry ["foo", "bar"] (by decide) (by decide)

/-- Counterexample to C2 as stated: passing a 20-character name overflows the
20-byte `char name[20]` buffer (`strcpy` writes 21 bytes), so the stored name
is undefined rather than equal to the passed name — even though this is only
the first call, well within the 10-call bound. -/
theorem newDocument_overlong_name_cex :
    (Application.appInit.runNewDocs [String.mk (List.replicate 20 'a')]).isSome = true ∧
    (Application.appInit.runNewDocs [String.mk (List.replicate 20 'a')]).map
        (fun st => Option.bind (st.docs.getD 0 none) Document.name)
      ≠ some (some (String.mk (List.replicate 20 'a'))) := by
  constructor
  · decide
  · decide

end DesignPatterns
